import Mathlib

/-!
Shallow embedding of the WSD (word-sense disambiguation) repository:
`wsd_utils.py` and `cs5322f25prog3.py`.  Python regular expressions used by
the source are modelled by a small executable regex engine (`RE`, `runRE`,
`reSearch`, `subOnce`) supporting exactly the constructs the source patterns
use: literal characters (case-insensitive, matching `re.I`), alternation,
concatenation, optional `?`, character-class repetition (used only for
`\s*`, `\s+`, `\w+`), the word-boundary assertion `\b`, and capture groups
(used only by the augmentation substitution).  Backtracking preference
order (alternation left first, repetition greedy/longest first, optional
match first) mirrors Python's `re` engine.
-/

/-- The apostrophe character (ASCII 39). -/
def apos : Char := Char.ofNat 39

/-- ASCII lower-casing, the effect of `re.I` on the source's ASCII patterns. -/
def pyLower (c : Char) : Char :=
  if 65 ≤ c.toNat ∧ c.toNat ≤ 90 then Char.ofNat (c.toNat + 32) else c

/-- Python `\s` (and `str.strip` / `str.split` whitespace), ASCII part:
space, tab, newline, carriage return, vertical tab, form feed. -/
def pyIsSpace (c : Char) : Bool :=
  c == ' ' || c == Char.ofNat 9 || c == Char.ofNat 10 || c == Char.ofNat 13 ||
  c == Char.ofNat 11 || c == Char.ofNat 12

/-- Python `\w` (ASCII part): letters, digits, underscore. -/
def isWordChar (c : Char) : Bool :=
  c.isAlpha || c.isDigit || c == '_'

/-- Regular-expression abstract syntax, covering the constructs used by the
source's patterns. -/
inductive RE where
  | fail : RE
  | eps : RE
  | cls (f : Char → Bool) : RE
  | many (f : Char → Bool) : RE
  | wordB : RE
  | alt (a b : RE) : RE
  | seq (a b : RE) : RE
  | opt (a : RE) : RE
  | group (n : Nat) (a : RE) : RE

/-- Captured groups: group number paired with the captured characters. -/
abbrev Caps := List (Nat × List Char)

/-- One in-progress match state: the character just before the remaining input
(for `\b`), the remaining input, and the captures so far. -/
abbrev MState := Option Char × List Char × Caps

/-- Is the character on one side of a position a word character
(`none` = string edge, not a word character)? -/
def optIsWord : Option Char → Bool
  | none => false
  | some c => isWordChar c

/-- All ways (longest first, mirroring greedy repetition) to consume a run of
class characters.  Returns the character before the stop position and the
remaining input. -/
def runMany (f : Char → Bool) : Option Char → List Char → List (Option Char × List Char)
  | prev, [] => [(prev, [])]
  | prev, c :: rest =>
    if f c then runMany f (some c) rest ++ [(prev, c :: rest)]
    else [(prev, c :: rest)]

/-- Backtracking matcher: all suffix states reachable by matching `r` at the
start of the input, in Python's preference order (first element = the match
Python's engine would pick). -/
def runRE : RE → Option Char → List Char → List MState
  | .fail, _, _ => []
  | .eps, prev, s => [(prev, s, [])]
  | .cls f, _, s =>
    match s with
    | [] => []
    | c :: rest => if f c then [(some c, rest, [])] else []
  | .many f, prev, s => (runMany f prev s).map (fun x => (x.1, x.2, []))
  | .wordB, prev, s =>
    if optIsWord prev != optIsWord s.head? then [(prev, s, [])] else []
  | .alt a b, prev, s => runRE a prev s ++ runRE b prev s
  | .seq a b, prev, s =>
    (runRE a prev s).flatMap (fun x =>
      (runRE b x.1 x.2.1).map (fun y => (y.1, y.2.1, x.2.2 ++ y.2.2)))
  | .opt a, prev, s => runRE a prev s ++ [(prev, s, [])]
  | .group n a, prev, s =>
    (runRE a prev s).map (fun x =>
      (x.1, x.2.1, x.2.2 ++ [(n, s.take (s.length - x.2.1.length))]))

/-- Does `r` match starting at some position of the input (`re.search`
semantics)?  `prev` is the character before the current position. -/
def searchPos (r : RE) : Option Char → List Char → Bool
  | prev, [] => !(runRE r prev []).isEmpty
  | prev, c :: rest => !(runRE r prev (c :: rest)).isEmpty || searchPos r (some c) rest

/-- `rx.search(s)` truthiness: some match anywhere in the string. -/
def reSearch (r : RE) (s : List Char) : Bool :=
  searchPos r none s

/-- A literal pattern character, matched case-insensitively (`re.I`). -/
def rchr (c : Char) : RE :=
  RE.cls (fun x => pyLower x == c)

/-- A literal pattern string (each character case-insensitive). -/
def rstr (s : String) : RE :=
  (s.data.map rchr).foldr RE.seq RE.eps

/-- Concatenation of a pattern list. -/
def rcat (l : List RE) : RE :=
  l.foldr RE.seq RE.eps

/-- Alternation `(p1|p2|...)` of a pattern list, tried left to right. -/
def alts (l : List RE) : RE :=
  l.foldr RE.alt RE.fail

/-- The pattern `\s+`. -/
def wsP : RE :=
  RE.seq (RE.cls pyIsSpace) (RE.many pyIsSpace)

/-- The pattern `\s*`. -/
def wsS : RE :=
  RE.many pyIsSpace

/-- The word-boundary assertion `\b`. -/
def wb : RE :=
  RE.wordB

/-- The pattern shape `\b( alt1 | alt2 | ... )\b`. -/
def bgroup (l : List RE) : RE :=
  rcat [wb, alts l, wb]

/-!
Cue patterns for the word "rubbish".  Each definition transcribes one regex
string from the source; identical regex strings appearing in both
`wsd_utils.py` (`LexiconFeatures.fit`) and `cs5322f25prog3.py` (`_predict`)
are transcribed once and shared.  In the transcription comments the
apostrophe character is written `<apos>`.
-/

/-- Regex `\b(bin|trash|garbage|landfill|dump(ed)?|litter|garbage\s*truck|trash\s*bag|rubbish\s*heap|refuse|debris|waste|scrap)\b`. -/
def rbS1Trash : RE :=
  bgroup [rstr "bin", rstr "trash", rstr "garbage", rstr "landfill",
    rcat [rstr "dump", RE.opt (rstr "ed")], rstr "litter",
    rcat [rstr "garbage", wsS, rstr "truck"], rcat [rstr "trash", wsS, rstr "bag"],
    rcat [rstr "rubbish", wsS, rstr "heap"], rstr "refuse", rstr "debris",
    rstr "waste", rstr "scrap"]

/-- Alternatives `clean\s*up|dispose|collection|garbage\s*collector|curbside\s*pickup|collection\s*day`, shared by the fit-side and predict-side disposal patterns. -/
def rbS1CleanAlts : List RE :=
  [rcat [rstr "clean", wsS, rstr "up"], rstr "dispose", rstr "collection",
   rcat [rstr "garbage", wsS, rstr "collector"],
   rcat [rstr "curbside", wsS, rstr "pickup"],
   rcat [rstr "collection", wsS, rstr "day"]]

/-- Alternative `pick-?up\s*day`, present only in the fit-side pattern. -/
def rbS1PickupDay : RE :=
  rcat [rstr "pick", RE.opt (rchr '-'), rstr "up", wsS, rstr "day"]

/-- Regex `\b(clean\s*up|dispose|collection|garbage\s*collector|curbside\s*pickup|collection\s*day|pick-?up\s*day)\b` (wsd_utils.py, fit). -/
def rbS1CleanFit : RE :=
  bgroup (rbS1CleanAlts ++ [rbS1PickupDay])

/-- Regex `\b(clean\s*up|dispose|collection|garbage\s*collector|curbside\s*pickup|collection\s*day)\b` (cs5322f25prog3.py, _predict). -/
def rbS1CleanCue : RE :=
  bgroup rbS1CleanAlts

/-- Regex `\b(recycle|recycling|waste\s+management|skip\s+bin|rubbish\s*bin|trash\s*can|landfill\s*site|compost|compactor)\b`. -/
def rbS1Recycle : RE :=
  bgroup [rstr "recycle", rstr "recycling", rcat [rstr "waste", wsP, rstr "management"],
    rcat [rstr "skip", wsP, rstr "bin"], rcat [rstr "rubbish", wsS, rstr "bin"],
    rcat [rstr "trash", wsS, rstr "can"], rcat [rstr "landfill", wsS, rstr "site"],
    rstr "compost", rstr "compactor"]

/-- Regex `\b(tip|dumpster|wheelie\s*bin|refuse\s*site|transfer\s*station|municipal\s*dump)\b`. -/
def rbS1Tip : RE :=
  bgroup [rstr "tip", rstr "dumpster", rcat [rstr "wheelie", wsS, rstr "bin"],
    rcat [rstr "refuse", wsS, rstr "site"], rcat [rstr "transfer", wsS, rstr "station"],
    rcat [rstr "municipal", wsS, rstr "dump"]]

/-- Regex `\b(bag(s)?\s*of\s*rubbish|pile(s)?\s*of\s*rubbish)\b`. -/
def rbS1Bags : RE :=
  bgroup [rcat [rstr "bag", RE.opt (rstr "s"), wsS, rstr "of", wsS, rstr "rubbish"],
    rcat [rstr "pile", RE.opt (rstr "s"), wsS, rstr "of", wsS, rstr "rubbish"]]

/-- Regex `\b(nonsense|nonsensical|codswallop|tripe|drivel|baloney|bollocks|hogwash|poppycock|claptrap|twaddle|bunkum?|malarkey|guff|piffle|balderdash|flimflam|tommyrot)\b`. -/
def rbS2Nonsense : RE :=
  bgroup [rstr "nonsense", rstr "nonsensical", rstr "codswallop", rstr "tripe",
    rstr "drivel", rstr "baloney", rstr "bollocks", rstr "hogwash", rstr "poppycock",
    rstr "claptrap", rstr "twaddle", rcat [rstr "bunku", RE.opt (rchr 'm')],
    rstr "malarkey", rstr "guff", rstr "piffle", rstr "balderdash", rstr "flimflam",
    rstr "tommyrot"]

/-- Regex `(absolute|utter|load of|complete|pile of|lot of|load of old|total|sheer)\s+rubbish`. -/
def rbS2Load : RE :=
  rcat [alts [rstr "absolute", rstr "utter", rstr "load of", rstr "complete",
    rstr "pile of", rstr "lot of", rstr "load of old", rstr "total", rstr "sheer"],
    wsP, rstr "rubbish"]

/-- Regex `\btalk(ing)?\s+rubbish\b`. -/
def rbS2Talk : RE :=
  rcat [wb, rstr "talk", RE.opt (rstr "ing"), wsP, rstr "rubbish", wb]

/-- Regex `\b(that<apos>?s|this is)\s+rubbish\b`. -/
def rbS2Thats : RE :=
  rcat [wb, alts [rcat [rstr "that", RE.opt (rchr apos), rstr "s"], rstr "this is"],
    wsP, rstr "rubbish", wb]

/-- Regex `\brubbish!\b`. -/
def rbS2Bang : RE :=
  rcat [wb, rstr "rubbish!", wb]

/-- Regex `\b(rubbish|silly|ridiculous)\s+idea\b`. -/
def rbS2Idea : RE :=
  rcat [wb, alts [rstr "rubbish", rstr "silly", rstr "ridiculous"], wsP, rstr "idea", wb]

/-- Regex `\bthis\s+article\s+is\s+rubbish\b`. -/
def rbS2Article : RE :=
  rcat [wb, rstr "this", wsP, rstr "article", wsP, rstr "is", wsP, rstr "rubbish", wb]

/-!
Cue patterns for the word "director".
-/

/-- Regex `\b(executive|managing|marketing|hospital|regional|operations|finance|technical|program|communications|research|security|customer\s*service)\s+director\b`. -/
def dirS1Exec : RE :=
  rcat [wb, alts [rstr "executive", rstr "managing", rstr "marketing", rstr "hospital",
    rstr "regional", rstr "operations", rstr "finance", rstr "technical", rstr "program",
    rstr "communications", rstr "research", rstr "security",
    rcat [rstr "customer", wsS, rstr "service"]], wsP, rstr "director", wb]

/-- Regex `\bdirector\s+of\s+(human\s*resources|sales|operations|communications|research|security|customer\s*service|finance|marketing|it|hr)\b`. -/
def dirS1Of : RE :=
  rcat [wb, rstr "director", wsP, rstr "of", wsP,
    alts [rcat [rstr "human", wsS, rstr "resources"], rstr "sales", rstr "operations",
      rstr "communications", rstr "research", rstr "security",
      rcat [rstr "customer", wsS, rstr "service"], rstr "finance", rstr "marketing",
      rstr "it", rstr "hr"], wb]

/-- Regex `\b(board|company|organization|department|division|nonprofit|museum|school|hospital)\s+director\b`. -/
def dirS1Board : RE :=
  rcat [wb, alts [rstr "board", rstr "company", rstr "organization", rstr "department",
    rstr "division", rstr "nonprofit", rstr "museum", rstr "school", rstr "hospital"],
    wsP, rstr "director", wb]

/-- Regex `\bdirector\s+(approved|announced|implemented|presented|oversees|coordinates|manages|selected|curated|met|streamlined|improved)\b` (wsd_utils.py fit only). -/
def dirS1Verbs : RE :=
  rcat [wb, rstr "director", wsP, alts [rstr "approved", rstr "announced",
    rstr "implemented", rstr "presented", rstr "oversees", rstr "coordinates",
    rstr "manages", rstr "selected", rstr "curated", rstr "met", rstr "streamlined",
    rstr "improved"], wb]

/-- Regex `\b(chief\s*executive|ceo|board\s+of\s+directors)\b`. -/
def dirS1Chief : RE :=
  bgroup [rcat [rstr "chief", wsS, rstr "executive"], rstr "ceo",
    rcat [rstr "board", wsP, rstr "of", wsP, rstr "directors"]]

/-- Regex `\b(film|movie|theater|theatre|cinema|documentary|short\s*film|feature\s*film)\s+director\b`. -/
def dirS2Film : RE :=
  rcat [wb, alts [rstr "film", rstr "movie", rstr "theater", rstr "theatre",
    rstr "cinema", rstr "documentary", rcat [rstr "short", wsS, rstr "film"],
    rcat [rstr "feature", wsS, rstr "film"]], wsP, rstr "director", wb]

/-- Regex `\bdirector\s+(shouted|called|chose|collaborated|received|wrapped|spent|worked|answered|transformed|blocked|aspires)\b` (wsd_utils.py fit only). -/
def dirS2Verbs : RE :=
  rcat [wb, rstr "director", wsP, alts [rstr "shouted", rstr "called", rstr "chose",
    rstr "collaborated", rstr "received", rstr "wrapped", rstr "spent", rstr "worked",
    rstr "answered", rstr "transformed", rstr "blocked", rstr "aspires"], wb]

/-- Regex `\b(actor|actress|scene|shot|take|cut|cinematographer|screenwriter|screening|premiere|festival|pre-?production|principal\s+photography)\b`. -/
def dirS2Actor : RE :=
  bgroup [rstr "actor", rstr "actress", rstr "scene", rstr "shot", rstr "take",
    rstr "cut", rstr "cinematographer", rstr "screenwriter", rstr "screening",
    rstr "premiere", rstr "festival",
    rcat [rstr "pre", RE.opt (rchr '-'), rstr "production"],
    rcat [rstr "principal", wsP, rstr "photography"]]

/-- Regex `\bdirector<apos>?s\s+(cut|vision|style|work|previous\s+work|approach)\b`. -/
def dirS2Poss : RE :=
  rcat [wb, rstr "director", RE.opt (rchr apos), rstr "s", wsP,
    alts [rstr "cut", rstr "vision", rstr "style", rstr "work",
      rcat [rstr "previous", wsP, rstr "work"], rstr "approach"], wb]

/-- Regex `\b(award-?winning|independent|aspiring|documentary|theater|theatre)\s+director\b`. -/
def dirS2Award : RE :=
  rcat [wb, alts [rcat [rstr "award", RE.opt (rchr '-'), rstr "winning"],
    rstr "independent", rstr "aspiring", rstr "documentary", rstr "theater",
    rstr "theatre"], wsP, rstr "director", wb]

/-- Regex `\b(director|directors)\s+(study|learn|earn|secure|plan|shoot|film|direct)\b` (wsd_utils.py fit only). -/
def dirS2Study : RE :=
  rcat [wb, alts [rstr "director", rstr "directors"], wsP,
    alts [rstr "study", rstr "learn", rstr "earn", rstr "secure", rstr "plan",
      rstr "shoot", rstr "film", rstr "direct"], wb]

/-- Regex `\b(film\s+school|film\s+festival|standing\s+ovation|visual\s+storytelling|narrative\s+structures)\b`. -/
def dirS2School : RE :=
  bgroup [rcat [rstr "film", wsP, rstr "school"], rcat [rstr "film", wsP, rstr "festival"],
    rcat [rstr "standing", wsP, rstr "ovation"],
    rcat [rstr "visual", wsP, rstr "storytelling"],
    rcat [rstr "narrative", wsP, rstr "structures"]]

/-!
Pattern lists.  `LexiconFeatures.fit` (wsd_utils.py lines 174-218) configures
the `Fit` lists; `_predict` (cs5322f25prog3.py lines 35-93) evaluates the
`Cues` lists.
-/

/-- Pattern list `s1` configured by `LexiconFeatures.fit` for word "rubbish". -/
def rubbishFitS1 : List RE :=
  [rbS1Trash, rbS1CleanFit, rbS1Recycle, rbS1Tip, rbS1Bags]

/-- Pattern list `s2` configured by `LexiconFeatures.fit` for word "rubbish". -/
def rubbishFitS2 : List RE :=
  [rbS2Nonsense, rbS2Load, rbS2Talk, rbS2Thats, rbS2Bang, rbS2Idea, rbS2Article]

/-- List `sense1_cues` evaluated by `_predict` for word "rubbish". -/
def rubbishCuesS1 : List RE :=
  [rbS1Trash, rbS1CleanCue, rbS1Recycle, rbS1Tip, rbS1Bags]

/-- List `sense2_cues` evaluated by `_predict` for word "rubbish". -/
def rubbishCuesS2 : List RE :=
  [rbS2Nonsense, rbS2Load, rbS2Talk, rbS2Bang, rbS2Thats, rbS2Idea, rbS2Article]

/-- Pattern list `s1` configured by `LexiconFeatures.fit` for word "director". -/
def directorFitS1 : List RE :=
  [dirS1Exec, dirS1Of, dirS1Board, dirS1Verbs, dirS1Chief]

/-- Pattern list `s2` configured by `LexiconFeatures.fit` for word "director". -/
def directorFitS2 : List RE :=
  [dirS2Film, dirS2Verbs, dirS2Actor, dirS2Poss, dirS2Award, dirS2Study, dirS2School]

/-- List `sense1_cues` evaluated by `_predict` for word "director". -/
def directorCuesS1 : List RE :=
  [dirS1Exec, dirS1Of, dirS1Board, dirS1Chief]

/-- List `sense2_cues` evaluated by `_predict` for word "director". -/
def directorCuesS2 : List RE :=
  [dirS2Film, dirS2Actor, dirS2Poss, dirS2Award, dirS2School]

/-- Does any pattern of the list match somewhere in the sentence
(`any(rx.search(s) for rx in pats)`)? -/
def anyCue (pats : List RE) (s : String) : Bool :=
  pats.any (fun r => reSearch r s.data)

example : anyCue rubbishFitS1 "pick-up day" = true := by decide

example : anyCue rubbishCuesS1 "pick-up day" = false := by decide

/-!
String helpers modelling the Python built-ins used by the source
(`str.strip`, `str.rstrip`, `str.split`, `str.splitlines`), ASCII newline
and whitespace model.
-/

/-- Python `str.strip()` on a character list. -/
def pyStripL (s : List Char) : List Char :=
  ((s.dropWhile pyIsSpace).reverse.dropWhile pyIsSpace).reverse

/-- Python `str.strip()`. -/
def pyStrip (s : String) : String :=
  String.mk (pyStripL s.data)

/-- Python `str.rstrip()`. -/
def pyRstrip (s : String) : String :=
  String.mk ((s.data.reverse.dropWhile pyIsSpace).reverse)

/-- Helper for `pyWords`: accumulates the current word (reversed). -/
def pyWordsAux (cur : List Char) : List Char → List (List Char)
  | [] => if cur.isEmpty then [] else [cur.reverse]
  | c :: r =>
    if pyIsSpace c then
      if cur.isEmpty then pyWordsAux [] r else cur.reverse :: pyWordsAux [] r
    else pyWordsAux (c :: cur) r

/-- Python `str.split()` with no argument: whitespace-delimited words,
empty pieces dropped. -/
def pyWords (s : List Char) : List (List Char) :=
  pyWordsAux [] s

/-- Helper for `pySplitlines`: split at each newline character. -/
def splitNLAux (cur : List Char) : List Char → List (List Char)
  | [] => [cur.reverse]
  | c :: r =>
    if c == Char.ofNat 10 then cur.reverse :: splitNLAux [] r
    else splitNLAux (c :: cur) r

/-- Python `str.splitlines()` (newline-terminator semantics: a trailing
newline does not produce a final empty line). -/
def pySplitlines (s : String) : List String :=
  if s.data.isEmpty then []
  else
    let parts := (splitNLAux [] s.data).map String.mk
    if s.data.getLast? == some (Char.ofNat 10) then parts.dropLast else parts

/-!
Embedding of `normalize_sentences` (wsd_utils.py lines 49-57).
-/

/-- Model of `re.sub(r"\s+", " ", s)`: every maximal run of whitespace
becomes one space.  The boolean flag records whether the previous input
character belonged to a whitespace run already replaced. -/
def collapseWS : Bool → List Char → List Char
  | _, [] => []
  | inRun, c :: rest =>
    if pyIsSpace c then
      (if inRun then [] else [' ']) ++ collapseWS true rest
    else c :: collapseWS false rest

/-- Per-string body of `normalize_sentences`:
`re.sub(r"\s+", " ", s).strip()`. -/
def normalizeOne (s : String) : String :=
  pyStrip (String.mk (collapseWS false s.data))

/-- Embedding of `normalize_sentences` (wsd_utils.py lines 49-57). -/
def normalize_sentences (sents : List String) : List String :=
  sents.map normalizeOne

example : normalize_sentences ["  a \t  b  "] = ["a b"] := by decide

/-!
Embedding of `parse_two_sense_file` (wsd_utils.py lines 7-46).
-/

/-- The sense-marker scan of `parse_two_sense_file` (wsd_utils.py lines
21-28): `i` is the current line index, `s1` the recorded sense-1 marker.
Mirrors the `for`/`elif`/`break` loop: a line stripping to "1" is recorded
(once) as the sense-1 marker; otherwise a line stripping to "2" records the
sense-2 marker and stops the scan. -/
def markerLoop (i : Nat) (s1 : Option Nat) : List String → Option Nat × Option Nat
  | [] => (s1, none)
  | line :: rest =>
    if s1 == none && pyStrip line == "1" then markerLoop (i + 1) (some i) rest
    else if pyStrip line == "2" then (s1, some i)
    else markerLoop (i + 1) s1 rest

/-- Marker indices found by scanning the cleaned lines from the top. -/
def findMarkers (cleaned : List String) : Option Nat × Option Nat :=
  markerLoop 0 none cleaned

/-- Predicate of `is_probable_sentence` (wsd_utils.py lines 40-42):
`re.search` of the character class ` .,<apos>;:!?-` plus at least three
whitespace-delimited tokens. -/
def is_probable_sentence (s : String) : Bool :=
  (s.data.any (fun c => [' ', '.', ',', apos, ';', ':', '!', '?', '-'].contains c)) &&
  3 ≤ (pyWords s.data).length

/-- Error message raised when a sense marker is missing (the source writes
the digits between apostrophes). -/
def markerErrMsg : String :=
  "Could not locate sense markers " ++ String.singleton apos ++ "1" ++
    String.singleton apos ++ " and " ++ String.singleton apos ++ "2" ++
    String.singleton apos ++ " in file."

/-- Embedding of `parse_two_sense_file` (wsd_utils.py lines 7-46); Python's
`raise ValueError` is modelled as `Except.error`. -/
def parse_two_sense_file (contents : String) : Except String (List String × List String) :=
  let lines := pySplitlines contents
  let cleaned := lines.map pyRstrip
  match findMarkers cleaned with
  | (some sense1_idx, some sense2_idx) =>
    let sense1_lines :=
      (((cleaned.drop (sense1_idx + 1)).take (sense2_idx - (sense1_idx + 1))).map pyStrip).filter
        (fun l => l ≠ "")
    let sense2_lines := ((cleaned.drop (sense2_idx + 1)).map pyStrip).filter (fun l => l ≠ "")
    Except.ok (sense1_lines.filter is_probable_sentence, sense2_lines.filter is_probable_sentence)
  | _ => Except.error markerErrMsg

example : parse_two_sense_file "word\n1\nthe bin is full today.\n2\nwhat a silly idea, really." =
    Except.ok (["the bin is full today."], ["what a silly idea, really."]) := by rfl

example : (parse_two_sense_file "2\n1\n2").isOk = false := by decide

/-!
Embedding of `augment_sentences` (wsd_utils.py lines 119-158).  Python's
`re.sub(pattern, repl, s, count=1, flags=re.I)` is modelled by `subOnce`:
replace the leftmost match (chosen in the engine's preference order) once,
expanding group references in the replacement template.  The `random`
module is external library state; it is modelled abstractly by a generator
type `G` with `seedF` (for `random.seed`) and `choiceIdx` (for the index
`random.choice` draws, always below the list length for a faithful
generator; a modulus totalizes the abstract one).
-/

/-- Leftmost match of `r`: start index, match length, and captures. -/
def findMatchAux (r : RE) : Option Char → Nat → List Char → Option (Nat × Nat × Caps)
  | prev, i, s =>
    match runRE r prev s with
    | m :: _ => some (i, s.length - m.2.1.length, m.2.2)
    | [] =>
      match s with
      | [] => none
      | c :: rest => findMatchAux r (some c) (i + 1) rest

/-- One piece of a replacement template: literal text or a group reference. -/
inductive RP where
  | str (cs : List Char) : RP
  | grp (n : Nat) : RP

/-- Expand a replacement template against the captures of a match. -/
def expandTmpl (caps : Caps) : List RP → List Char
  | [] => []
  | RP.str cs :: r => cs ++ expandTmpl caps r
  | RP.grp n :: r => ((caps.lookup n).getD []) ++ expandTmpl caps r

/-- Model of `re.sub(r, tmpl, s, count=1, flags=re.I)`. -/
def subOnce (r : RE) (tmpl : List RP) (s : List Char) : List Char :=
  match findMatchAux r none 0 s with
  | none => s
  | some (i, len, caps) => s.take i ++ expandTmpl caps tmpl ++ s.drop (i + len)

/-- The `replacements` rule list of `augment_sentences` (wsd_utils.py lines
129-139): pattern plus replacement template. -/
def replacements : List (RE × List RP) :=
  [(rcat [wb, rstr "is", wb], [RP.str "was".data]),
   (rcat [wb, rstr "has", wb], [RP.str "had".data]),
   (rcat [wb, rstr "does", wb], [RP.str "did".data]),
   (rcat [wb, rstr "the", wsP], [RP.str "a ".data]),
   (rcat [wb, rstr "a", wsP], [RP.str "the ".data]),
   (rcat [wb, RE.group 1 (RE.seq (RE.cls isWordChar) (RE.many isWordChar)), wsP,
      RE.group 2 (alts [rstr "director", rstr "overtime", rstr "rubbish"])],
    [RP.grp 1, RP.str ", the ".data, RP.grp 2])]

/-- `random.choice(replacements)`: draw an index below the list length and
return that rule together with the advanced generator. -/
def chooseRep {G : Type} (choiceIdx : G → Nat → Nat × G) (g : G) : (RE × List RP) × G :=
  let p := choiceIdx g replacements.length
  (replacements.getD (p.1 % replacements.length) (RE.fail, []), p.2)

/-- The variant `re.sub(rep[0], rep[1], sent, count=1, flags=re.I)` built
from one replacement rule. -/
def augVariant (rep : RE × List RP) (sent : String) : String :=
  String.mk (subOnce rep.1 rep.2 sent.data)

/-- The inner `for sent in sentences` loop of `augment_sentences`:
short sentences are skipped, otherwise one randomly chosen substitution is
applied; an accepted variant is appended, and the loop breaks once the
accumulated length reaches the cap. -/
def augInner {G : Type} (choiceIdx : G → Nat → Nat × G) (cap : Nat) :
    G → List String → List String → List String × G
  | g, acc, [] => (acc, g)
  | g, acc, sent :: rest =>
    if (pyWords sent.data).length < 4 then augInner choiceIdx cap g acc rest
    else if augVariant (chooseRep choiceIdx g).1 sent ≠ sent ∧
        3 ≤ (pyWords (augVariant (chooseRep choiceIdx g).1 sent).data).length then
      if cap ≤ (acc ++ [augVariant (chooseRep choiceIdx g).1 sent]).length then
        (acc ++ [augVariant (chooseRep choiceIdx g).1 sent], (chooseRep choiceIdx g).2)
      else augInner choiceIdx cap (chooseRep choiceIdx g).2
        (acc ++ [augVariant (chooseRep choiceIdx g).1 sent]) rest
    else augInner choiceIdx cap (chooseRep choiceIdx g).2 acc rest

/-- The outer `for _ in range(num_augmentations)` loop of
`augment_sentences`, breaking once the cap is reached. -/
def augOuter {G : Type} (choiceIdx : G → Nat → Nat × G) (cap : Nat)
    (sentences : List String) : Nat → G → List String → List String
  | 0, _, acc => acc
  | k + 1, g, acc =>
    let r := augInner choiceIdx cap g acc sentences
    if cap ≤ r.1.length then r.1 else augOuter choiceIdx cap sentences k r.2 r.1

/-- Embedding of `augment_sentences` (wsd_utils.py lines 119-158).  `g0` is
the state of the global `random` generator before the call; the call starts
with `random.seed(42)`, which replaces it. -/
def augment_sentences {G : Type} (seedF : Nat → G) (choiceIdx : G → Nat → Nat × G)
    (g0 : G) (sentences : List String) (num_augmentations : Nat) : List String :=
  let cap := sentences.length * (1 + num_augmentations)
  let g := seedF 42
  (augOuter choiceIdx cap sentences num_augmentations g sentences).take cap

/-!
Embedding of `LexiconFeatures` (wsd_utils.py lines 161-229).  The numpy
float matrix holds exact small integer counts; it is modelled as a list of
`Nat` pairs (row i = (column 0, column 1)).
-/

/-- State of a `LexiconFeatures` transformer (fields `word`, `_s1_patterns`,
`_s2_patterns`). -/
structure LexiconFeatures where
  word : String
  s1_patterns : List RE
  s2_patterns : List RE

/-- The `LexiconFeatures.__init__` constructor: stores the word and starts
with both pattern lists empty. -/
def LexiconFeatures.init (word : String) : LexiconFeatures :=
  ⟨word, [], []⟩

/-- Embedding of `LexiconFeatures.fit` (wsd_utils.py lines 174-218). -/
def LexiconFeatures.fit (self : LexiconFeatures) : LexiconFeatures :=
  if self.word = "rubbish" then ⟨self.word, rubbishFitS1, rubbishFitS2⟩
  else if self.word = "director" then ⟨self.word, directorFitS1, directorFitS2⟩
  else ⟨self.word, [], []⟩

/-- A `LexiconFeatures` transformer for `word` after `fit`, as built by the
training pipeline. -/
def fittedFor (word : String) : LexiconFeatures :=
  (LexiconFeatures.init word).fit

/-- The per-sentence count `sum(1 for rx in pats if rx.search(s))`: number of
patterns with a match anywhere in the sentence, each contributing at most 1. -/
def countHits (pats : List RE) (s : String) : Nat :=
  (pats.filter (fun rx => reSearch rx s.data)).length

/-- Embedding of `LexiconFeatures.transform` (wsd_utils.py lines 220-229). -/
def LexiconFeatures.transform (self : LexiconFeatures) (X : List String) : List (Nat × Nat) :=
  if self.s1_patterns.isEmpty && self.s2_patterns.isEmpty then X.map (fun _ => (0, 0))
  else X.map (fun s => (countHits self.s1_patterns s, countHits self.s2_patterns s))

/-!
Embedding of the prediction side (cs5322f25prog3.py).  The filesystem and
the unpickled sklearn pipeline are external: `modelExists` states whether
the artifact file exists, `base_dir` is the resolved script directory, and
`model` is the loaded pipeline's per-sentence `predict` (sklearn `predict`
maps a batch elementwise, one label per row; training fits it with labels
drawn from {1, 2}).  Python exceptions are modelled as `Except`.
-/

/-- Errors raised by the prediction entry points. -/
inductive PredError where
  | inputError (msg : String) : PredError
  | notFound (msg : String) : PredError
deriving DecidableEq

/-- The expected artifact path `base_dir / "models" / f"{word}_model.joblib"`. -/
def model_path (base_dir word : String) : String :=
  base_dir ++ "/models/" ++ word ++ "_model.joblib"

/-- The `FileNotFoundError` message of `_load_model` (cs5322f25prog3.py
lines 18-21). -/
def notFoundMsg (base_dir word : String) : String :=
  "Model file not found for " ++ String.singleton apos ++ word ++ String.singleton apos ++
    " at " ++ model_path base_dir word ++ ". Please run the training script to generate models."

/-- Embedding of `_load_model` (cs5322f25prog3.py lines 11-22): succeeds
exactly when the artifact file exists. -/
def load_model (modelExists : Bool) (base_dir word : String) : Except PredError Unit :=
  if modelExists then Except.ok ()
  else Except.error (PredError.notFound (notFoundMsg base_dir word))

/-- One step of the override loop body (cs5322f25prog3.py lines 54-62 and
84-92): cue hits decide between an override label and the classifier
prediction `p`. -/
def adjustOne (cuesS1 cuesS2 : List RE) (s : String) (p : Int) : Int :=
  let s2_hit := anyCue cuesS2 s
  let s1_hit := anyCue cuesS1 s
  if s2_hit && !s1_hit then 2
  else if s1_hit && !s2_hit then 1
  else p

/-- Embedding of `_predict` (cs5322f25prog3.py lines 25-95).  `none` models
calling the entry point with `None`. -/
def wsdPredict (modelExists : Bool) (base_dir : String) (model : String → Int)
    (word : String) (sentences : Option (List String)) : Except PredError (List Int) :=
  match sentences with
  | none => Except.error (PredError.inputError "Input must be a list of strings (sentences).")
  | some sents =>
    match load_model modelExists base_dir word with
    | Except.error e => Except.error e
    | Except.ok _ =>
      let X := normalize_sentences sents
      let preds := X.map model
      let preds :=
        if word = "director" then
          (X.zip preds).map (fun sp => adjustOne directorCuesS1 directorCuesS2 sp.1 sp.2)
        else if word = "rubbish" then
          (X.zip preds).map (fun sp => adjustOne rubbishCuesS1 rubbishCuesS2 sp.1 sp.2)
        else preds
      Except.ok preds

/-- Embedding of `WSD_Test_director` (cs5322f25prog3.py lines 98-99). -/
def WSD_Test_director (modelExists : Bool) (base_dir : String) (model : String → Int)
    (sent_list : Option (List String)) : Except PredError (List Int) :=
  wsdPredict modelExists base_dir model "director" sent_list

/-- Embedding of `WSD_Test_overtime` (cs5322f25prog3.py lines 102-103). -/
def WSD_Test_overtime (modelExists : Bool) (base_dir : String) (model : String → Int)
    (sent_list : Option (List String)) : Except PredError (List Int) :=
  wsdPredict modelExists base_dir model "overtime" sent_list

/-- Embedding of `WSD_Test_rubbish` (cs5322f25prog3.py lines 106-107). -/
def WSD_Test_rubbish (modelExists : Bool) (base_dir : String) (model : String → Int)
    (sent_list : Option (List String)) : Except PredError (List Int) :=
  wsdPredict modelExists base_dir model "rubbish" sent_list

/-!
Auxiliary definitions used only to state and settle the claims.
-/

/-- Does a line strip to exactly "1"? -/
def isMarker1 (l : String) : Bool :=
  pyStrip l == "1"

/-- Does a line strip to exactly "2"? -/
def isMarker2 (l : String) : Bool :=
  pyStrip l == "2"

/-- Index of the first element satisfying `p`. -/
def firstIdx (p : String → Bool) : List String → Option Nat
  | [] => none
  | a :: l => if p a then some 0 else (firstIdx p l).map (· + 1)

/-- Marker scan exactly as the claim (and spec section 4.2) words it: locate
the first line stripping to "1" by scanning from the top, then locate the
first line stripping to "2" by continuing that same scan past the "1"
marker; fail only when either marker is absent under this scan. -/
def claimScanMarkers (cleaned : List String) : Option (Nat × Nat) :=
  match firstIdx isMarker1 cleaned with
  | none => none
  | some i =>
    match firstIdx isMarker2 (cleaned.drop (i + 1)) with
    | none => none
    | some k => some (i, i + 1 + k)

/-- Normal-form scanner for collapsed strings: checks that every whitespace
character is a plain space and that no whitespace character immediately
follows another (the boolean records whether the previous character was
whitespace). -/
def chkNorm : Bool → List Char → Bool
  | _, [] => true
  | b, c :: r =>
    if pyIsSpace c then (c == ' ' && !b) && chkNorm true r
    else chkNorm false r

/-- A classifier stub predicting sense 1 everywhere, used to instantiate
witnesses. -/
def constOne : String → Int :=
  fun _ => 1

/-- Conclusion of claim C4: with the artifact present, each entry point
returns a list obtained by mapping a per-sentence function over the input
(hence length- and order-preserving, the i-th output depending on the i-th
input sentence only), and every returned label is 1 or 2. -/
def C4Conclusion (base : String) (mdl : String → Int) (xs : List String) : Prop :=
  (∃ ys, WSD_Test_director true base mdl (some xs) = Except.ok ys ∧
    ys = xs.map (fun s =>
      adjustOne directorCuesS1 directorCuesS2 (normalizeOne s) (mdl (normalizeOne s))) ∧
    ys.length = xs.length ∧ ∀ y ∈ ys, y = 1 ∨ y = 2) ∧
  (∃ ys, WSD_Test_overtime true base mdl (some xs) = Except.ok ys ∧
    ys = xs.map (fun s => mdl (normalizeOne s)) ∧
    ys.length = xs.length ∧ ∀ y ∈ ys, y = 1 ∨ y = 2) ∧
  (∃ ys, WSD_Test_rubbish true base mdl (some xs) = Except.ok ys ∧
    ys = xs.map (fun s =>
      adjustOne rubbishCuesS1 rubbishCuesS2 (normalizeOne s) (mdl (normalizeOne s))) ∧
    ys.length = xs.length ∧ ∀ y ∈ ys, y = 1 ∨ y = 2)

/-!
Helper lemmas about the augmentation loops.
-/

/-- The inner loop only appends to the accumulator. -/
lemma augInner_append {G : Type} (choiceIdx : G → Nat → Nat × G) (cap : Nat) :
    ∀ (rest : List String) (g : G) (acc : List String),
      ∃ ext, (augInner choiceIdx cap g acc rest).1 = acc ++ ext := by
  intro rest
  induction rest with
  | nil => intro g acc; exact ⟨[], by simp [augInner]⟩
  | cons sent rest ih =>
    intro g acc
    simp only [augInner]
    split
    · exact ih g acc
    · split
      · split
        · exact ⟨[augVariant (chooseRep choiceIdx g).1 sent], rfl⟩
        · obtain ⟨ext, hext⟩ := ih (chooseRep choiceIdx g).2
            (acc ++ [augVariant (chooseRep choiceIdx g).1 sent])
          exact ⟨[augVariant (chooseRep choiceIdx g).1 sent] ++ ext, by
            rw [hext, List.append_assoc]⟩
      · exact ih (chooseRep choiceIdx g).2 acc

/-- Starting strictly below the cap, the inner loop never leaves the
accumulator above the cap. -/
lemma augInner_len {G : Type} (choiceIdx : G → Nat → Nat × G) (cap : Nat) :
    ∀ (rest : List String) (g : G) (acc : List String),
      acc.length < cap → (augInner choiceIdx cap g acc rest).1.length ≤ cap := by
  intro rest
  induction rest with
  | nil => intro g acc h; simpa [augInner] using Nat.le_of_lt h
  | cons sent rest ih =>
    intro g acc h
    simp only [augInner]
    split
    · exact ih g acc h
    · split
      · split
        · simpa using h
        · rename_i hcap
          exact ih (chooseRep choiceIdx g).2 _ (Nat.lt_of_not_le hcap)
      · exact ih (chooseRep choiceIdx g).2 acc h

/-- The outer loop only appends to the accumulator. -/
lemma augOuter_append {G : Type} (choiceIdx : G → Nat → Nat × G) (cap : Nat)
    (sentences : List String) :
    ∀ (k : Nat) (g : G) (acc : List String),
      ∃ ext, augOuter choiceIdx cap sentences k g acc = acc ++ ext := by
  intro k
  induction k with
  | zero => intro g acc; exact ⟨[], by simp [augOuter]⟩
  | succ k ih =>
    intro g acc
    obtain ⟨e1, he1⟩ := augInner_append choiceIdx cap sentences g acc
    simp only [augOuter]
    split
    · exact ⟨e1, he1⟩
    · obtain ⟨e2, he2⟩ := ih (augInner choiceIdx cap g acc sentences).2
        (augInner choiceIdx cap g acc sentences).1
      exact ⟨e1 ++ e2, by rw [he2, he1, List.append_assoc]⟩

/-- Starting strictly below the cap, the outer loop never leaves the
accumulator above the cap. -/
lemma augOuter_len {G : Type} (choiceIdx : G → Nat → Nat × G) (cap : Nat)
    (sentences : List String) :
    ∀ (k : Nat) (g : G) (acc : List String),
      acc.length < cap → (augOuter choiceIdx cap sentences k g acc).length ≤ cap := by
  intro k
  induction k with
  | zero => intro g acc h; simpa [augOuter] using Nat.le_of_lt h
  | succ k ih =>
    intro g acc h
    simp only [augOuter]
    split
    · exact augInner_len choiceIdx cap sentences g acc h
    · rename_i hcap
      exact ih _ _ (Nat.lt_of_not_le hcap)

/-- With an empty sentence list the loops never produce anything. -/
lemma augOuter_nil {G : Type} (choiceIdx : G → Nat → Nat × G) (cap : Nat) :
    ∀ (k : Nat) (g : G), augOuter choiceIdx cap [] k g [] = [] := by
  intro k
  induction k with
  | zero => intro g; simp [augOuter]
  | succ k ih =>
    intro g
    simp only [augOuter, augInner]
    split
    · rfl
    · exact ih _

/-- C6: `augment_sentences` keeps the original sentences unchanged and in
order as the head of its output, its output length lies between the input
length and the cap `len(sentences) * (1 + num_augmentations)`, and the
generation loop itself already stops at the cap (the final slice never has
to remove generated variants). -/
theorem c6_augment_prefix_and_cap {G : Type} (seedF : Nat → G)
    (choiceIdx : G → Nat → Nat × G) (g0 : G) (sentences : List String) (n : Nat) :
    (augment_sentences seedF choiceIdx g0 sentences n).take sentences.length = sentences ∧
    sentences.length ≤ (augment_sentences seedF choiceIdx g0 sentences n).length ∧
    (augment_sentences seedF choiceIdx g0 sentences n).length ≤ sentences.length * (1 + n) ∧
    (augOuter choiceIdx (sentences.length * (1 + n)) sentences n (seedF 42)
        sentences).length ≤ sentences.length * (1 + n) := by
  have hLcap : sentences.length ≤ sentences.length * (1 + n) := by
    have h1 : 0 < 1 + n := by omega
    calc sentences.length = sentences.length * 1 := (Nat.mul_one _).symm
      _ ≤ sentences.length * (1 + n) := Nat.mul_le_mul_left _ h1
  obtain ⟨ext, hext⟩ :=
    augOuter_append choiceIdx (sentences.length * (1 + n)) sentences n (seedF 42) sentences
  have hcap : (augOuter choiceIdx (sentences.length * (1 + n)) sentences n (seedF 42)
      sentences).length ≤ sentences.length * (1 + n) := by
    rcases Nat.eq_zero_or_pos sentences.length with hL | hL
    · have hnil : sentences = [] := List.length_eq_zero.mp hL
      subst hnil
      simp [augOuter_nil]
    · rcases Nat.eq_zero_or_pos n with hn | hn
      · subst hn
        simpa [augOuter] using hLcap
      · refine augOuter_len choiceIdx _ sentences n (seedF 42) sentences ?_
        have : 1 ≤ sentences.length * n := Nat.mul_pos hL hn
        have hexp : sentences.length * (1 + n) = sentences.length + sentences.length * n := by
          rw [Nat.mul_add, Nat.mul_one]
        omega
  refine ⟨?_, ?_, ?_, hcap⟩
  · show ((augOuter choiceIdx (sentences.length * (1 + n)) sentences n (seedF 42)
        sentences).take (sentences.length * (1 + n))).take sentences.length = sentences
    rw [List.take_take, Nat.min_eq_left hLcap, hext, List.take_left]
  · show sentences.length ≤ ((augOuter choiceIdx (sentences.length * (1 + n)) sentences n
        (seedF 42) sentences).take (sentences.length * (1 + n))).length
    rw [List.length_take, hext]
    exact Nat.le_min.mpr ⟨hLcap, by simp⟩
  · show ((augOuter choiceIdx (sentences.length * (1 + n)) sentences n (seedF 42)
        sentences).take (sentences.length * (1 + n))).length ≤ sentences.length * (1 + n)
    rw [List.length_take]
    exact Nat.min_le_left _ _

/-- C7: the output of `augment_sentences` does not depend on the state of
the pseudo-random generator before the call — the call reseeds with the
fixed seed 42, so two calls with identical sentence arguments return
identical output lists. -/
theorem c7_augment_deterministic {G : Type} (seedF : Nat → G)
    (choiceIdx : G → Nat → Nat × G) (g0 g1 : G) (sentences : List String) (n : Nat) :
    augment_sentences seedF choiceIdx g0 sentences n =
      augment_sentences seedF choiceIdx g1 sentences n := rfl

/-- C10: with `num_augmentations = 0` the augmenter returns exactly its
input list. -/
theorem c10_augment_zero_identity {G : Type} (seedF : Nat → G)
    (choiceIdx : G → Nat → Nat × G) (g0 : G) (sentences : List String) :
    augment_sentences seedF choiceIdx g0 sentences 0 = sentences := by
  simp [augment_sentences, augOuter]

/-- C8: calling an entry point with `None` raises the input error before any
model load (even when no artifact exists); with a real sentence list but a
missing artifact it raises the not-found error, whose message contains the
expected artifact path and the instruction to run the training script. -/
theorem c8_error_handling (base : String) (mdl : String → Int) (xs : List String) :
    (∀ modelExists,
      WSD_Test_director modelExists base mdl none =
        Except.error (PredError.inputError "Input must be a list of strings (sentences).") ∧
      WSD_Test_overtime modelExists base mdl none =
        Except.error (PredError.inputError "Input must be a list of strings (sentences).") ∧
      WSD_Test_rubbish modelExists base mdl none =
        Except.error (PredError.inputError "Input must be a list of strings (sentences).")) ∧
    (WSD_Test_director false base mdl (some xs) =
        Except.error (PredError.notFound (notFoundMsg base "director")) ∧
      WSD_Test_overtime false base mdl (some xs) =
        Except.error (PredError.notFound (notFoundMsg base "overtime")) ∧
      WSD_Test_rubbish false base mdl (some xs) =
        Except.error (PredError.notFound (notFoundMsg base "rubbish"))) ∧
    (∀ word, (model_path base word).data <:+: (notFoundMsg base word).data ∧
      "Please run the training script".data <:+: (notFoundMsg base word).data) := by
  refine ⟨fun _ => ⟨rfl, rfl, rfl⟩, ⟨rfl, rfl, rfl⟩, fun word => ⟨?_, ?_⟩⟩
  · exact ⟨("Model file not found for " ++ String.singleton apos ++ word ++
        String.singleton apos ++ " at ").data,
      ". Please run the training script to generate models.".data,
      by simp [notFoundMsg, String.data_append, List.append_assoc]⟩
  · refine ⟨("Model file not found for " ++ String.singleton apos ++ word ++
        String.singleton apos ++ " at " ++ model_path base word ++ ". ").data,
      " to generate models.".data, ?_⟩
    have hsplit : (". Please run the training script to generate models." : String).data =
        (". " : String).data ++ ("Please run the training script" : String).data ++
          (" to generate models." : String).data := by decide
    simp [notFoundMsg, String.data_append, List.append_assoc, hsplit]

/-!
Helper lemmas computing the prediction pipeline, shared by claims about
`_predict`.
-/

/-- Zipping a mapped list with a second map over it is a single map. -/
lemma zip_map_self {α β γ δ : Type} (l : List α) (f : α → β) (g : β → γ) (h : β → γ → δ) :
    ((l.map f).zip ((l.map f).map g)).map (fun p => h p.1 p.2) =
      l.map (fun x => h (f x) (g (f x))) := by
  induction l with
  | nil => rfl
  | cons a l ih =>
    rw [List.map_map] at ih
    simp [ih]

/-- Computation of `_predict` for "director" with the artifact present. -/
lemma wsdPredict_director_eq (base : String) (mdl : String → Int) (xs : List String) :
    wsdPredict true base mdl "director" (some xs) =
      Except.ok (xs.map fun s =>
        adjustOne directorCuesS1 directorCuesS2 (normalizeOne s) (mdl (normalizeOne s))) := by
  have h1 : wsdPredict true base mdl "director" (some xs) =
      Except.ok (((xs.map normalizeOne).zip ((xs.map normalizeOne).map mdl)).map
        (fun sp => adjustOne directorCuesS1 directorCuesS2 sp.1 sp.2)) := rfl
  rw [h1, zip_map_self]

/-- Computation of `_predict` for "rubbish" with the artifact present. -/
lemma wsdPredict_rubbish_eq (base : String) (mdl : String → Int) (xs : List String) :
    wsdPredict true base mdl "rubbish" (some xs) =
      Except.ok (xs.map fun s =>
        adjustOne rubbishCuesS1 rubbishCuesS2 (normalizeOne s) (mdl (normalizeOne s))) := by
  have h1 : wsdPredict true base mdl "rubbish" (some xs) =
      Except.ok (((xs.map normalizeOne).zip ((xs.map normalizeOne).map mdl)).map
        (fun sp => adjustOne rubbishCuesS1 rubbishCuesS2 sp.1 sp.2)) := rfl
  rw [h1, zip_map_self]

/-- Computation of `_predict` for "overtime" with the artifact present: the
classifier output passes through unchanged. -/
lemma wsdPredict_overtime_eq (base : String) (mdl : String → Int) (xs : List String) :
    wsdPredict true base mdl "overtime" (some xs) =
      Except.ok (xs.map fun s => mdl (normalizeOne s)) := by
  have h1 : wsdPredict true base mdl "overtime" (some xs) =
      Except.ok ((xs.map normalizeOne).map mdl) := rfl
  rw [h1, List.map_map]
  rfl

/-- C3: for "director" and "rubbish" each batch prediction applies the
override rule per sentence on the normalized text, and the override rule
outputs 2 on an exclusive sense-2 cue hit, 1 on an exclusive sense-1 cue
hit, and the classifier prediction `p` when both or neither cue set hits;
for "overtime" every classifier prediction passes through unchanged. -/
theorem c3_override_rule (base : String) (mdl : String → Int) (xs : List String) :
    WSD_Test_director true base mdl (some xs) =
      Except.ok (xs.map fun s =>
        adjustOne directorCuesS1 directorCuesS2 (normalizeOne s) (mdl (normalizeOne s))) ∧
    WSD_Test_rubbish true base mdl (some xs) =
      Except.ok (xs.map fun s =>
        adjustOne rubbishCuesS1 rubbishCuesS2 (normalizeOne s) (mdl (normalizeOne s))) ∧
    WSD_Test_overtime true base mdl (some xs) =
      Except.ok (xs.map fun s => mdl (normalizeOne s)) ∧
    (∀ (cs1 cs2 : List RE) (s : String) (p : Int),
      (anyCue cs2 s = true ∧ anyCue cs1 s = false → adjustOne cs1 cs2 s p = 2) ∧
      (anyCue cs1 s = true ∧ anyCue cs2 s = false → adjustOne cs1 cs2 s p = 1) ∧
      (anyCue cs1 s = anyCue cs2 s → adjustOne cs1 cs2 s p = p)) := by
  refine ⟨wsdPredict_director_eq base mdl xs, wsdPredict_rubbish_eq base mdl xs,
    wsdPredict_overtime_eq base mdl xs, fun cs1 cs2 s p => ⟨?_, ?_, ?_⟩⟩
  · rintro ⟨h2, h1⟩
    simp [adjustOne, h1, h2]
  · rintro ⟨h1, h2⟩
    simp [adjustOne, h1, h2]
  · intro h
    simp [adjustOne, h]

/-- Witness for C3: a sentence hit only by a director sense-2 cue is
overridden to label 2 whatever the classifier predicted. -/
theorem c3_override_rule_witness :
    anyCue directorCuesS2 "film director" = true ∧
    anyCue directorCuesS1 "film director" = false ∧
    adjustOne directorCuesS1 directorCuesS2 "film director" 1 = 2 :=
  ⟨by decide, by decide,
    ((c3_override_rule "" constOne []).2.2.2 directorCuesS1 directorCuesS2
      "film director" 1).1 ⟨by decide, by decide⟩⟩

/-- C4: with the artifact present, every entry point maps its input list
pointwise (same length, i-th output from the i-th sentence) and, for a
classifier predicting in {1, 2}, every returned label is 1 or 2. -/
theorem c4_entry_points (base : String) (mdl : String → Int) (xs : List String)
    (hm : ∀ s, mdl s = 1 ∨ mdl s = 2) : C4Conclusion base mdl xs := by
  have hadj : ∀ (cs1 cs2 : List RE) (s : String) (p : Int), p = 1 ∨ p = 2 →
      adjustOne cs1 cs2 s p = 1 ∨ adjustOne cs1 cs2 s p = 2 := by
    intro cs1 cs2 s p hp
    simp only [adjustOne]
    split
    · exact Or.inr rfl
    · split
      · exact Or.inl rfl
      · exact hp
  refine ⟨⟨_, wsdPredict_director_eq base mdl xs, rfl, by simp, ?_⟩,
    ⟨_, wsdPredict_overtime_eq base mdl xs, rfl, by simp, ?_⟩,
    ⟨_, wsdPredict_rubbish_eq base mdl xs, rfl, by simp, ?_⟩⟩
  · intro y hy
    rw [List.mem_map] at hy
    obtain ⟨s, -, rfl⟩ := hy
    exact hadj _ _ _ _ (hm _)
  · intro y hy
    rw [List.mem_map] at hy
    obtain ⟨s, -, rfl⟩ := hy
    exact hm _
  · intro y hy
    rw [List.mem_map] at hy
    obtain ⟨s, -, rfl⟩ := hy
    exact hadj _ _ _ _ (hm _)

/-- Witness for C4 at a concrete classifier and batch. -/
theorem c4_entry_points_witness :
    (∀ s, constOne s = 1 ∨ constOne s = 2) ∧ C4Conclusion "" constOne ["x"] :=
  ⟨fun _ => Or.inl rfl, c4_entry_points "" constOne ["x"] (fun _ => Or.inl rfl)⟩

/-- C5: after `fit`, `transform` maps each sentence to the pair of per-sense
pattern hit counts (each pattern contributing at most 1, bounded by the
pattern list length), and for any word other than "rubbish" and "director"
both fitted pattern lists are empty and `transform` is the all-zero matrix. -/
theorem c5_transform_counts (word : String) (X : List String) :
    (fittedFor word).transform X =
      X.map (fun s => (countHits (fittedFor word).s1_patterns s,
        countHits (fittedFor word).s2_patterns s)) ∧
    (∀ s, countHits (fittedFor word).s1_patterns s ≤ (fittedFor word).s1_patterns.length ∧
      countHits (fittedFor word).s2_patterns s ≤ (fittedFor word).s2_patterns.length) ∧
    (word ≠ "rubbish" → word ≠ "director" →
      (fittedFor word).s1_patterns = [] ∧ (fittedFor word).s2_patterns = [] ∧
      (fittedFor word).transform X = X.map (fun _ => (0, 0))) := by
  refine ⟨?_, ?_, ?_⟩
  · simp only [LexiconFeatures.transform]
    split
    · rename_i hemp
      rw [Bool.and_eq_true, List.isEmpty_iff, List.isEmpty_iff] at hemp
      rw [hemp.1, hemp.2]
      rfl
    · rfl
  · intro s
    exact ⟨List.length_filter_le _ _, List.length_filter_le _ _⟩
  · intro h1 h2
    have hfit : fittedFor word = ⟨word, [], []⟩ := by
      simp [fittedFor, LexiconFeatures.fit, LexiconFeatures.init, h1, h2]
    rw [hfit]
    exact ⟨rfl, rfl, rfl⟩

/-- Witness for C5 at word "overtime", which has no patterns. -/
theorem c5_transform_counts_witness :
    ("overtime" : String) ≠ "rubbish" ∧ ("overtime" : String) ≠ "director" ∧
    ((fittedFor "overtime").s1_patterns = [] ∧ (fittedFor "overtime").s2_patterns = [] ∧
      (fittedFor "overtime").transform ["anything"] = ["anything"].map (fun _ => (0, 0))) :=
  ⟨by decide, by decide,
    (c5_transform_counts "overtime" ["anything"]).2.2 (by decide) (by decide)⟩

/-!
Monotonicity of alternation matching, used to compare the `_predict` cue
lists with the larger `LexiconFeatures.fit` lists.
-/

/-- Empty alternation. -/
lemma alts_nil : alts [] = RE.fail := rfl

/-- Alternation unfolding. -/
lemma alts_cons (a : RE) (l : List RE) : alts (a :: l) = RE.alt a (alts l) := rfl

/-- Alternatives concatenate their match lists. -/
lemma runRE_alt (a b : RE) (prev : Option Char) (s : List Char) :
    runRE (RE.alt a b) prev s = runRE a prev s ++ runRE b prev s := rfl

/-- The empty alternation never matches. -/
lemma runRE_fail (prev : Option Char) (s : List Char) : runRE RE.fail prev s = [] := rfl

/-- Matching an appended alternation concatenates the match lists. -/
lemma runRE_alts_append (l1 l2 : List RE) (prev : Option Char) (s : List Char) :
    runRE (alts (l1 ++ l2)) prev s = runRE (alts l1) prev s ++ runRE (alts l2) prev s := by
  induction l1 with
  | nil => rw [List.nil_append, alts_nil, runRE_fail, List.nil_append]
  | cons a l1 ih =>
    rw [List.cons_append, alts_cons, alts_cons, runRE_alt, runRE_alt, ih, List.append_assoc]

/-- A `\b(...)\b` pattern over more alternatives matches wherever the pattern
over fewer alternatives does. -/
lemma runRE_bgroup_mono (l1 l2 : List RE) (prev : Option Char) (s : List Char)
    (h : runRE (bgroup l1) prev s ≠ []) : runRE (bgroup (l1 ++ l2)) prev s ≠ [] := by
  obtain ⟨x, hx⟩ := List.exists_mem_of_ne_nil _ h
  apply List.ne_nil_of_mem (a := x)
  simp only [bgroup, rcat, List.foldr, runRE, List.mem_flatMap, List.mem_map] at hx ⊢
  obtain ⟨u, hu, y, ⟨v, hv, z, ⟨w, hw, t, ht, hteq⟩, hzeq⟩, hyeq⟩ := hx
  have hv2 : v ∈ runRE (alts (l1 ++ l2)) u.1 u.2.1 := by
    rw [runRE_alts_append]
    exact List.mem_append_left _ hv
  exact ⟨u, hu, y, ⟨v, hv2, z, ⟨w, hw, t, ht, hteq⟩, hzeq⟩, hyeq⟩

/-- Search monotonicity from matcher monotonicity. -/
lemma searchPos_mono (r1 r2 : RE)
    (hmono : ∀ prev s, runRE r1 prev s ≠ [] → runRE r2 prev s ≠ []) :
    ∀ prev s, searchPos r1 prev s = true → searchPos r2 prev s = true := by
  intro prev s
  induction s generalizing prev with
  | nil =>
    simp only [searchPos, Bool.not_eq_true', List.isEmpty_eq_false]
    exact hmono _ _
  | cons c rest ih =>
    simp only [searchPos, Bool.or_eq_true, Bool.not_eq_true', List.isEmpty_eq_false]
    rintro (h | h)
    · exact Or.inl (hmono _ _ h)
    · exact Or.inr (ih _ h)

/-- `re.search` monotonicity for widened `\b(...)\b` alternations. -/
lemma reSearch_bgroup_mono (l1 l2 : List RE) (s : List Char)
    (h : reSearch (bgroup l1) s = true) : reSearch (bgroup (l1 ++ l2)) s = true :=
  searchPos_mono _ _ (runRE_bgroup_mono l1 l2) none s h

/-- C1 counterexample: for "rubbish" sense 1 the pattern sets differ — the
sentence "pick-up day" matches a `LexiconFeatures.fit` pattern (via its
`pick-?up\s*day` alternative) but matches no `_predict` sense-1 cue, so the
override layer's cue sets are not the same pattern sets as those configured
by `LexiconFeatures.fit`. -/
theorem c1_counterexample :
    anyCue rubbishFitS1 "pick-up day" = true ∧
    anyCue rubbishCuesS1 "pick-up day" = false := by
  constructor <;> decide

/-- C1 amended: every `_predict` cue match is also a `LexiconFeatures.fit`
match (the `_predict` lists are contained in the fit lists, the rubbish
disposal cue being an alternation over fewer alternatives), and for
"rubbish" sense 2 the two sets match exactly the same sentences; the
converse fails for the other three lists. -/
theorem c1_amended (s : String) :
    (anyCue rubbishCuesS1 s = true → anyCue rubbishFitS1 s = true) ∧
    (anyCue rubbishCuesS2 s = anyCue rubbishFitS2 s) ∧
    (anyCue directorCuesS1 s = true → anyCue directorFitS1 s = true) ∧
    (anyCue directorCuesS2 s = true → anyCue directorFitS2 s = true) := by
  refine ⟨?_, ?_, ?_, ?_⟩
  · simp only [anyCue, rubbishCuesS1, rubbishFitS1, List.any_cons, List.any_nil,
      Bool.or_eq_true, Bool.or_false]
    rintro (h | h | h | h | h)
    · exact Or.inl h
    · exact Or.inr (Or.inl (reSearch_bgroup_mono rbS1CleanAlts [rbS1PickupDay] s.data h))
    · exact Or.inr (Or.inr (Or.inl h))
    · exact Or.inr (Or.inr (Or.inr (Or.inl h)))
    · exact Or.inr (Or.inr (Or.inr (Or.inr h)))
  · have hiff : (anyCue rubbishCuesS2 s = true) ↔ (anyCue rubbishFitS2 s = true) := by
      simp only [anyCue, rubbishCuesS2, rubbishFitS2, List.any_cons, List.any_nil,
        Bool.or_eq_true, Bool.or_false]
      tauto
    cases h1 : anyCue rubbishCuesS2 s <;> cases h2 : anyCue rubbishFitS2 s <;>
      simp [h1, h2] at hiff ⊢
  · simp only [anyCue, directorCuesS1, directorFitS1, List.any_cons, List.any_nil,
      Bool.or_eq_true, Bool.or_false]
    tauto
  · simp only [anyCue, directorCuesS2, directorFitS2, List.any_cons, List.any_nil,
      Bool.or_eq_true, Bool.or_false]
    tauto

/-- Witness for C1 amended: a sentence hit by a `_predict` rubbish sense-1
cue is hit by the fit list too. -/
theorem c1_amended_witness :
    anyCue rubbishCuesS1 "the bin" = true ∧ anyCue rubbishFitS1 "the bin" = true :=
  ⟨by decide, (c1_amended "the bin").1 (by decide)⟩

/-!
Characterization of the sense-marker scan of `parse_two_sense_file`.
-/

/-- A first-index within a prefix is a first-index of the whole list landing
inside the prefix. -/
lemma firstIdx_take (p : String → Bool) :
    ∀ (l : List String) (j i : Nat),
      (firstIdx p (l.take j) = some i ↔ firstIdx p l = some i ∧ i < j) := by
  intro l
  induction l with
  | nil => intro j i; simp [firstIdx]
  | cons a l ih =>
    intro j i
    cases j with
    | zero => simp [firstIdx]
    | succ j =>
      simp only [List.take_succ_cons, firstIdx]
      by_cases hp : p a
      · simp only [if_pos hp]
        constructor
        · intro h
          exact ⟨h, by cases h; omega⟩
        · exact fun h => h.1
      · simp only [if_neg hp]
        constructor
        · intro h
          obtain ⟨k, hk, rfl⟩ := Option.map_eq_some'.mp h
          have hk2 := (ih j k).mp hk
          exact ⟨Option.map_eq_some'.mpr ⟨k, hk2.1, rfl⟩, by omega⟩
        · rintro ⟨h, hij⟩
          obtain ⟨k, hk, rfl⟩ := Option.map_eq_some'.mp h
          exact Option.map_eq_some'.mpr ⟨k, (ih j k).mpr ⟨hk, by omega⟩, rfl⟩


/-- After the sense-1 marker is recorded the scan only looks for the first
line stripping to "2". -/
lemma markerLoop_some (ls : List String) : ∀ (i v : Nat),
    markerLoop i (some v) ls = (some v, (firstIdx isMarker2 ls).map (i + ·)) := by
  induction ls with
  | nil => intro i v; simp [markerLoop, firstIdx]
  | cons a ls ih =>
    intro i v
    have hsv : ((some v : Option Nat) == none) = false := rfl
    simp only [markerLoop, hsv, Bool.false_and, Bool.false_eq_true, if_false]
    cases hm : isMarker2 a with
    | true =>
      have hm2 : (pyStrip a == "2") = true := hm
      simp [firstIdx, hm, hm2]
    | false =>
      have hm2 : (pyStrip a == "2") = false := hm
      simp only [hm2, Bool.false_eq_true, if_false, ih (i + 1) v, firstIdx, hm,
        Option.map_map]
      cases hfi : firstIdx isMarker2 ls with
      | none => simp
      | some k =>
        simp only [Option.map_some', Function.comp]
        have h : i + 1 + k = i + (k + 1) := by omega
        rw [h]

/-- Full characterization of the scan before any marker is recorded: the
sense-2 marker is the first "2" line anywhere (the scan stops there even
when no "1" line precedes it), and the sense-1 marker is the first "1"
line among the lines before it. -/
lemma markerLoop_none (ls : List String) : ∀ (i : Nat),
    markerLoop i none ls =
      (match firstIdx isMarker2 ls with
       | none => ((firstIdx isMarker1 ls).map (i + ·), none)
       | some j => ((firstIdx isMarker1 (ls.take j)).map (i + ·), some (i + j))) := by
  induction ls with
  | nil => intro i; simp [markerLoop, firstIdx]
  | cons a ls ih =>
    intro i
    have hnn : ((none : Option Nat) == none) = true := rfl
    cases hm1 : isMarker1 a with
    | true =>
      have hs1 : pyStrip a = "1" := eq_of_beq hm1
      have hb1 : (pyStrip a == "1") = true := hm1
      have hm2 : isMarker2 a = false := by simp [isMarker2, hs1]
      have hb2 : (pyStrip a == "2") = false := hm2
      simp only [markerLoop, hnn, Bool.true_and, hb1, if_true, markerLoop_some]
      simp only [firstIdx, hm1, hm2, Bool.false_eq_true, if_false, if_true]
      cases hfi : firstIdx isMarker2 ls with
      | none => simp
      | some k =>
        simp only [Option.map_some', List.take_succ_cons, firstIdx, hm1, if_true,
          Option.map_some']
        have h : i + 1 + k = i + (k + 1) := by omega
        rw [h]
        simp
    | false =>
      have hb1 : (pyStrip a == "1") = false := hm1
      cases hm2 : isMarker2 a with
      | true =>
        have hb2 : (pyStrip a == "2") = true := hm2
        simp only [markerLoop, hnn, Bool.true_and, hb1, Bool.false_eq_true, if_false,
          hb2, if_true]
        simp [firstIdx, hm1, hm2]
      | false =>
        have hb2 : (pyStrip a == "2") = false := hm2
        simp only [markerLoop, hnn, Bool.true_and, hb1, Bool.false_eq_true, if_false,
          hb2, ih (i + 1)]
        simp only [firstIdx, hm1, hm2, Bool.false_eq_true, if_false]
        cases hfi : firstIdx isMarker2 ls with
        | none =>
          simp only [Option.map_none', Option.map_map]
          cases hfj : firstIdx isMarker1 ls with
          | none => simp
          | some k =>
            simp only [Option.map_some', Function.comp]
            have h : i + 1 + k = i + (k + 1) := by omega
            rw [h]
        | some k =>
          simp only [Option.map_some', List.take_succ_cons, firstIdx, hm1,
            Bool.false_eq_true, if_false, Option.map_map]
          have hik : i + 1 + k = i + (k + 1) := by omega
          rw [hik]
          cases hfj : firstIdx isMarker1 (ls.take k) with
          | none => simp
          | some m =>
            simp only [Option.map_some', Function.comp]
            have h : i + 1 + m = i + (m + 1) := by omega
            rw [h]

/-- C2 counterexample: on the input lines "2", "1", "2" the code raises the
configuration error (its scan stops at the very first "2" line with no "1"
recorded), while the scan the claim describes finds marker "1" at line 1
and marker "2" at line 2, so the code does not raise "exactly when either
marker is absent" under the claimed scan. -/
theorem c2_counterexample :
    parse_two_sense_file "2\n1\n2" = Except.error markerErrMsg ∧
    claimScanMarkers ((pySplitlines "2\n1\n2").map pyRstrip) = some (1, 2) :=
  ⟨rfl, rfl⟩


/-- Parsing succeeds exactly when the marker scan finds both markers. -/
lemma parse_isOk_iff (contents : String) :
    (parse_two_sense_file contents).isOk = true ↔
      ∃ i j, findMarkers ((pySplitlines contents).map pyRstrip) = (some i, some j) := by
  rcases hfm : findMarkers ((pySplitlines contents).map pyRstrip) with ⟨s1, s2⟩
  rcases s1 with _ | i <;> rcases s2 with _ | j <;>
    (simp only [parse_two_sense_file]; rw [hfm]) <;>
    simp [Except.isOk, Except.toBool]

/-- C2 amended: the scan checks for a "2" line from the very first line on
(not only past the "1" marker): it stops at the first line stripping to
"2", recording as sense-1 marker the first line stripping to "1" among the
lines before it; parsing succeeds exactly when some "1" line precedes the
first "2" line, and raises the configuration error otherwise — in
particular also when a "2" line precedes every "1" line. -/
theorem c2_amended :
    (∀ cleaned : List String,
      findMarkers cleaned =
        (match firstIdx isMarker2 cleaned with
         | none => (firstIdx isMarker1 cleaned, none)
         | some j => (firstIdx isMarker1 (cleaned.take j), some j))) ∧
    (∀ contents : String,
      ((parse_two_sense_file contents).isOk = true ↔
        ∃ i j, firstIdx isMarker1 ((pySplitlines contents).map pyRstrip) = some i ∧
          firstIdx isMarker2 ((pySplitlines contents).map pyRstrip) = some j ∧ i < j)) := by
  have hchar : ∀ cleaned : List String,
      findMarkers cleaned =
        (match firstIdx isMarker2 cleaned with
         | none => (firstIdx isMarker1 cleaned, none)
         | some j => (firstIdx isMarker1 (cleaned.take j), some j)) := by
    intro cleaned
    rw [findMarkers, markerLoop_none]
    cases hfi : firstIdx isMarker2 cleaned with
    | none =>
      simp only [Option.map_map]
      cases firstIdx isMarker1 cleaned <;> simp
    | some j =>
      simp only [Option.map_some']
      cases firstIdx isMarker1 (cleaned.take j) <;> simp
  refine ⟨hchar, fun contents => ?_⟩
  rw [parse_isOk_iff contents]
  constructor
  · rintro ⟨i, j, hij⟩
    rw [hchar] at hij
    cases hfi : firstIdx isMarker2 ((pySplitlines contents).map pyRstrip) with
    | none => rw [hfi] at hij; simp at hij
    | some j2 =>
      rw [hfi] at hij
      rw [Prod.mk.injEq] at hij
      obtain ⟨h1, h2⟩ := hij
      have hg := (firstIdx_take isMarker1 ((pySplitlines contents).map pyRstrip) j2 i).mp h1
      exact ⟨i, j2, hg.1, rfl, hg.2⟩
  · rintro ⟨i, j, hi, hj, hlt⟩
    refine ⟨i, j, ?_⟩
    rw [hchar, hj]
    show (firstIdx isMarker1 (((pySplitlines contents).map pyRstrip).take j), some j) =
      (some i, some j)
    rw [(firstIdx_take isMarker1 ((pySplitlines contents).map pyRstrip) j i).mpr ⟨hi, hlt⟩]

/-!
Normal-form lemmas for `normalize_sentences`: the collapsed-and-stripped
string is a fixed point of both collapsing and stripping, which gives
idempotence.
-/

/-- A list passing the scan with flag `true` also passes with flag `false`. -/
lemma chkNorm_true_imp (l : List Char) (h : chkNorm true l = true) :
    chkNorm false l = true := by
  cases l with
  | nil => rfl
  | cons c r =>
    simp only [chkNorm] at h ⊢
    by_cases hc : pyIsSpace c = true
    · rw [if_pos hc] at h
      simp at h
    · rw [if_neg hc] at h ⊢
      exact h

/-- The output of whitespace collapsing passes the normal-form scan. -/
lemma chkNorm_collapse (l : List Char) : ∀ b, chkNorm b (collapseWS b l) = true := by
  induction l with
  | nil => intro b; rfl
  | cons c r ih =>
    intro b
    by_cases hc : pyIsSpace c = true
    · cases b with
      | true =>
        simp only [collapseWS, if_pos hc, if_true, List.nil_append]
        exact ih true
      | false =>
        simp only [collapseWS, if_pos hc, Bool.false_eq_true, if_false,
          List.singleton_append, chkNorm]
        rw [if_pos (show pyIsSpace ' ' = true from rfl)]
        simp only [Bool.not_false, Bool.and_true, beq_self_eq_true, Bool.true_and]
        exact ih true
    · have hc' : pyIsSpace c = false := by revert hc; cases pyIsSpace c <;> simp
      cases b <;>
        · simp only [collapseWS, hc', Bool.false_eq_true, if_false, chkNorm]
          exact ih false

/-- A scan-normal list is a fixed point of whitespace collapsing. -/
lemma collapse_of_chkNorm : ∀ (l : List Char) (b : Bool),
    chkNorm b l = true → collapseWS b l = l := by
  intro l
  induction l with
  | nil => intro b _; rfl
  | cons c r ih =>
    intro b h
    by_cases hc : pyIsSpace c = true
    · simp only [chkNorm, if_pos hc, Bool.and_eq_true, Bool.not_eq_true',
        beq_iff_eq] at h
      obtain ⟨⟨hsp, hb⟩, hr⟩ := h
      subst hb
      simp only [collapseWS, if_pos hc, Bool.false_eq_true, if_false,
        List.singleton_append]
      rw [ih true hr, hsp]
    · simp only [chkNorm, if_neg hc] at h
      simp only [collapseWS, if_neg hc]
      rw [ih false h]

/-- The scan restricts to an initial segment. -/
lemma chkNorm_append_left : ∀ (l1 l2 : List Char) (b : Bool),
    chkNorm b (l1 ++ l2) = true → chkNorm b l1 = true := by
  intro l1
  induction l1 with
  | nil => intro l2 b _; rfl
  | cons c r ih =>
    intro l2 b h
    simp only [List.cons_append, chkNorm] at h ⊢
    by_cases hc : pyIsSpace c = true
    · rw [if_pos hc] at h ⊢
      rw [Bool.and_eq_true] at h
      rw [Bool.and_eq_true]
      exact ⟨h.1, ih l2 true h.2⟩
    · rw [if_neg hc] at h ⊢
      exact ih l2 false h

/-- The scan survives dropping leading whitespace. -/
lemma chkNorm_dropWhile (l : List Char) (h : chkNorm false l = true) :
    chkNorm false (l.dropWhile pyIsSpace) = true := by
  induction l with
  | nil => exact h
  | cons c r ih =>
    by_cases hc : pyIsSpace c = true
    · rw [List.dropWhile_cons, if_pos hc]
      simp only [chkNorm, if_pos hc, Bool.and_eq_true] at h
      exact ih (chkNorm_true_imp r h.2)
    · rw [List.dropWhile_cons, if_neg hc]
      exact h

/-- Dropping while a predicate holds never lengthens a list. -/
lemma length_dropWhile_le (p : Char → Bool) (l : List Char) :
    (l.dropWhile p).length ≤ l.length := by
  induction l with
  | nil => simp
  | cons a l ih =>
    rw [List.dropWhile_cons]
    split
    · exact Nat.le_succ_of_le ih
    · exact Nat.le_refl _

/-- `pyStripL` is right-stripping after left-stripping. -/
lemma pyStripL_eq (l : List Char) :
    pyStripL l = (l.dropWhile pyIsSpace).rdropWhile pyIsSpace := rfl

/-- Unfolding of the data of a normalized string. -/
lemma normalizeOne_data (s : String) :
    (normalizeOne s).data =
      ((collapseWS false s.data).dropWhile pyIsSpace).rdropWhile pyIsSpace := rfl

/-- A normalized string passes the normal-form scan. -/
lemma normalizeOne_chk (s : String) : chkNorm false (normalizeOne s).data = true := by
  rw [normalizeOne_data]
  have ht : chkNorm false (collapseWS false s.data) = true := chkNorm_collapse s.data false
  have hA : chkNorm false ((collapseWS false s.data).dropWhile pyIsSpace) = true :=
    chkNorm_dropWhile _ ht
  obtain ⟨t2, ht2⟩ :=
    List.rdropWhile_prefix pyIsSpace ((collapseWS false s.data).dropWhile pyIsSpace)
  exact chkNorm_append_left _ t2 false (by rw [ht2]; exact hA)

/-- A normalized string is a fixed point of whitespace collapsing. -/
lemma normalizeOne_collapse_fixed (s : String) :
    collapseWS false (normalizeOne s).data = (normalizeOne s).data :=
  collapse_of_chkNorm _ false (normalizeOne_chk s)

/-- A normalized string is a fixed point of stripping. -/
lemma normalizeOne_strip_fixed (s : String) :
    pyStripL (normalizeOne s).data = (normalizeOne s).data := by
  rw [pyStripL_eq]
  have hAfix : ((collapseWS false s.data).dropWhile pyIsSpace).dropWhile pyIsSpace =
      (collapseWS false s.data).dropWhile pyIsSpace :=
    List.dropWhile_idempotent pyIsSpace (collapseWS false s.data)
  have hdrop_u : (normalizeOne s).data.dropWhile pyIsSpace = (normalizeOne s).data := by
    rw [normalizeOne_data]
    obtain ⟨t2, ht2⟩ :=
      List.rdropWhile_prefix pyIsSpace ((collapseWS false s.data).dropWhile pyIsSpace)
    cases hcase : ((collapseWS false s.data).dropWhile pyIsSpace).rdropWhile pyIsSpace with
    | nil => rfl
    | cons c u2 =>
      rw [hcase] at ht2
      have hAeq : (collapseWS false s.data).dropWhile pyIsSpace = c :: (u2 ++ t2) := by
        rw [← ht2]
        simp
      have hcfail : pyIsSpace c = false := by
        by_cases hc : pyIsSpace c = true
        · exfalso
          have hfix2 := hAfix
          rw [hAeq, List.dropWhile_cons, if_pos hc] at hfix2
          have hlen := congrArg List.length hfix2
          have hle := length_dropWhile_le pyIsSpace (u2 ++ t2)
          simp only [List.length_cons] at hlen
          omega
        · revert hc
          cases pyIsSpace c <;> simp
      rw [List.dropWhile_cons, if_neg (by simp [hcfail])]
  rw [hdrop_u, normalizeOne_data, List.rdropWhile_idempotent]

/-- Per-string idempotence of the normalizer. -/
lemma normalizeOne_idem (s : String) : normalizeOne (normalizeOne s) = normalizeOne s := by
  have h1 : normalizeOne (normalizeOne s) =
      pyStrip (String.mk (collapseWS false (normalizeOne s).data)) := rfl
  rw [h1, normalizeOne_collapse_fixed s]
  show String.mk (pyStripL (normalizeOne s).data) = normalizeOne s
  rw [normalizeOne_strip_fixed s]

/-- C9: `normalize_sentences` is length- and order-preserving (a pointwise
map), maps the empty string to the empty string, is idempotent, and each
output string is in normal form (every whitespace character is a single
plain space with no adjacent whitespace, and stripping it again changes
nothing). -/
theorem c9_normalize (xs : List String) :
    (normalize_sentences xs).length = xs.length ∧
    normalize_sentences xs = xs.map normalizeOne ∧
    normalizeOne "" = "" ∧
    normalize_sentences (normalize_sentences xs) = normalize_sentences xs ∧
    (∀ s : String, chkNorm false (normalizeOne s).data = true ∧
      pyStrip (normalizeOne s) = normalizeOne s) := by
  refine ⟨by simp [normalize_sentences], rfl, rfl, ?_, fun s => ⟨normalizeOne_chk s, ?_⟩⟩
  · simp only [normalize_sentences, List.map_map, Function.comp]
    exact List.map_congr_left (fun s _ => normalizeOne_idem s)
  · show String.mk (pyStripL (normalizeOne s).data) = normalizeOne s
    rw [normalizeOne_strip_fixed s]
